import Mathlib

/-
Verification of the jsnoop handler-resolution and artifact-entity core
(src/jsnoop/handlers/init module) against its natural-language
specification.  Python strings are modelled as lists of characters,
Python byte strings as lists of naturals, exceptions as an explicit
error type threaded through Except, and the filesystem as an explicit
record of directories and files.  The string and path helpers below are
faithful models of the CPython functions the source calls
(str.lower, str.replace, str.lstrip, os.path.splitext, os.path.dirname,
os.path.basename, os.path.join, os.makedirs, shutil.rmtree).
-/

deriving instance DecidableEq for Except

namespace JSnoop

/-- Python strings, modelled as lists of characters. -/
abbrev PyStr := List Char

/-- Shorthand turning a Lean string literal into a modelled Python string. -/
def str (s : String) : PyStr := s.data

/-- The posix path separator used throughout the source (os.path.sep). -/
def sep : Char := '/'

/-- The Python exceptions that the modelled code can raise or observe.
osError and memoryError stand for the environment failures of the spec
taxonomy (I/O error, resource exhaustion); they are distinct from the
container-format validation failure valueError. -/
inductive PyExc where
  | valueError
  | unboundLocalError
  | fileExistsError
  | assertionError
  | notADirectoryError
  | osError
  | memoryError
deriving DecidableEq

/-- Model of str.lower (the source only lowercases ASCII extensions). -/
def pyLower (s : PyStr) : PyStr := s.map Char.toLower

/-- Index of the last occurrence of a character, none when absent
(models str.rfind restricted to single-character needles). -/
def lastIdx (c : Char) : PyStr → Option Nat
  | [] => none
  | x :: xs =>
    match lastIdx c xs with
    | some i => some (i + 1)
    | none => if x = c then some 0 else none

/-- Whether some character strictly between indices a and b differs from
a dot; used by the splitext model below. -/
def hasNonDotBetween (p : PyStr) (a b : Nat) : Bool :=
  ((p.drop a).take (b - a)).any (fun c => c ≠ '.')

/-- Model of os.path.splitext(p) projected on its second component (the
extension).  Faithful to posixpath.splitext: the extension starts at the
last dot lying after the last separator, unless every character between
the separator and that dot is itself a dot (so dotfiles have no
extension). -/
def pySplitextExt (p : PyStr) : PyStr :=
  match lastIdx sep p, lastIdx '.' p with
  | _, none => []
  | none, some di =>
    if hasNonDotBetween p 0 di then p.drop di else []
  | some si, some di =>
    if si < di then
      (if hasNonDotBetween p (si + 1) di then p.drop di else [])
    else []

/-- Strip every leading path separator (models str.lstrip(sep)). -/
def pyLstripSlash : PyStr → PyStr
  | [] => []
  | c :: s' => if c = sep then pyLstripSlash s' else c :: s'

/-- Strip every trailing path separator (models str.rstrip(sep)). -/
def pyRstripSlash (s : PyStr) : PyStr := (pyLstripSlash s.reverse).reverse

/-- Model of os.path.basename: everything after the last separator. -/
def pyBasename (p : PyStr) : PyStr :=
  match lastIdx sep p with
  | none => p
  | some k => p.drop (k + 1)

/-- Model of os.path.dirname: everything up to and including the last
separator, then trailing separators removed unless the head consists of
separators only. -/
def pyDirname (p : PyStr) : PyStr :=
  match lastIdx sep p with
  | none => []
  | some k =>
    let head := p.take (k + 1)
    if head ≠ [] ∧ ¬ head.all (fun c => c = sep) then pyRstripSlash head
    else head

/-- Join of a relative (or empty) second component (helper for pyJoin). -/
def pyJoinRel (a b : PyStr) : PyStr :=
  if a = [] ∨ a.getLast? = some sep then a ++ b else a ++ [sep] ++ b

/-- Model of os.path.join for two components: an absolute second
component discards the first. -/
def pyJoin (a b : PyStr) : PyStr :=
  match b with
  | c :: _ => if c = sep then b else pyJoinRel a b
  | [] => pyJoinRel a []

/-- Fuel-driven scanner behind str.replace for a nonempty needle:
replaces each non-overlapping occurrence, scanning left to right.  The
fuel only serves structural termination; fuel at least the length of the
subject is always sufficient. -/
def pyReplaceFuel (f r : PyStr) : Nat → PyStr → PyStr
  | _, [] => []
  | 0, s => s
  | n + 1, c :: s' =>
    if f.isPrefixOf (c :: s') then r ++ pyReplaceFuel f r n (List.drop f.length (c :: s'))
    else c :: pyReplaceFuel f r n s'

/-- Model of str.replace(f, r): for an empty needle Python inserts the
replacement at every gap; otherwise every non-overlapping occurrence is
replaced left to right. -/
def pyReplace (s f r : PyStr) : PyStr :=
  if f = [] then r ++ s.flatMap (fun c => c :: r)
  else pyReplaceFuel f r s.length s

/-- The handler classes of the package (values of the CLASSES table in
the source: ArchiveFile, ClassFile, ManifestFile, SignatureFile,
SimpleFile). -/
inductive HandlerKind where
  | archiveFile
  | classFile
  | manifestFile
  | signatureFile
  | simpleFile
deriving DecidableEq

/-- The MODULES extension table composed with the CLASSES table: maps a
lowercase extension with leading dot to the handler class of its module.
The source dict literal lists the war key twice with the same value. -/
def MODULES (ext : PyStr) : Option HandlerKind :=
  if ext = str ".mf" then some HandlerKind.manifestFile
  else if ext = str ".rsa" then some HandlerKind.signatureFile
  else if ext = str ".dsa" then some HandlerKind.signatureFile
  else if ext = str ".class" then some HandlerKind.classFile
  else if ext = str ".zip" then some HandlerKind.archiveFile
  else if ext = str ".gz" then some HandlerKind.archiveFile
  else if ext = str ".bz2" then some HandlerKind.archiveFile
  else if ext = str ".tar" then some HandlerKind.archiveFile
  else if ext = str ".jar" then some HandlerKind.archiveFile
  else if ext = str ".war" then some HandlerKind.archiveFile
  else if ext = str ".sar" then some HandlerKind.archiveFile
  else none

/-- The default fallback handler class (module simplefile). -/
def DEFAULT_HANDLER : HandlerKind := HandlerKind.simpleFile

/-- Model of get_known_extensions: the keys of the MODULES table in
insertion order (a duplicated dict key keeps its first position). -/
def get_known_extensions : List PyStr :=
  [str ".mf", str ".rsa", str ".dsa", str ".class", str ".zip", str ".gz",
   str ".bz2", str ".tar", str ".jar", str ".war", str ".sar"]

/-- The argument of ignore_extensions and unignore_extensions: either a
single extension string or a list of them. -/
inductive PyStrOrList where
  | single (s : PyStr)
  | many (l : List PyStr)
deriving DecidableEq

/-- The exts local of ignore_extensions and unignore_extensions:
wrap a single string into a list, then lowercase every element. -/
def arg_exts : PyStrOrList → List PyStr
  | PyStrOrList.single s => [s]
  | PyStrOrList.many l => l

/-- Model of ignore_extensions.  The source body performs an augmented
assignment to the module-level IGNORED_EXTENSIONS list without a global
declaration; under CPython name resolution the assignment makes the name
function-local, so the load performed by the augmented assignment raises
UnboundLocalError before any mutation happens.  The function therefore
always raises and never updates the shared ignore list, whatever the
argument; the exts local is still computed first, as in the source. -/
def ignore_extensions (arg : PyStrOrList) (ignored : List PyStr) :
    Except PyExc (List PyStr) :=
  let _exts := (arg_exts arg).map pyLower
  let _ := ignored
  Except.error PyExc.unboundLocalError

/-- Model of unignore_extensions: lowercase the argument extensions and
remove the first occurrence of each one that is present in the ignore
list (list.remove removes the first occurrence; the membership guard in
the source makes the absent case a no-op). -/
def unignore_extensions (arg : PyStrOrList) (ignored : List PyStr) : List PyStr :=
  ((arg_exts arg).map pyLower).foldl
    (fun acc ext => if acc.contains ext then acc.erase ext else acc) ignored

/-- Model of is_ignored_extension: membership of the lowercased
extension in the current ignore list. -/
def is_ignored_extension (ext : PyStr) (ignored : List PyStr) : Bool :=
  ignored.contains (pyLower ext)

/-- Model of get_handler: classify by lowercased extension, the ignore
list overriding the table, and fall back to the default simplefile
handler for an unmapped extension.  The bare except of the source cannot
fire in this model because none of the string operations raise. -/
def get_handler (filename : PyStr) (ignored : List PyStr) : HandlerKind :=
  let extension := pyLower (pySplitextExt filename)
  if is_ignored_extension extension ignored then DEFAULT_HANDLER
  else
    match MODULES extension with
    | some k => k
    | none => DEFAULT_HANDLER

/-- Modelled from the spec: the archivefile module
(jsnoop.handlers.archivefile, class ArchiveFile) is not under src/.
Per the spec, constructing the Archive variant raises a
container-format validation failure exactly when the byte source is not
a valid container; the source catches that failure as ValueError.  The
outcome of the forced construction attempt is therefore determined by
whether the input is a valid container. -/
def archive_attempt_of (validContainer : Bool) : Except PyExc Unit :=
  if validContainer then Except.ok () else Except.error PyExc.valueError

/-- Model of get_handler_obj, projected on the handler class that gets
constructed: first force-try the archivefile handler; on ValueError fall
back to extension-based classification via get_handler; any other
exception of the forced attempt propagates.  The forced attempt is
passed in as its outcome so that both the spec-modelled constructor
(archive_attempt_of) and arbitrary failures can be studied. -/
def get_handler_obj (archive_attempt : Except PyExc Unit) (filepath : PyStr)
    (ignored : List PyStr) : Except PyExc HandlerKind :=
  match archive_attempt with
  | Except.ok _ => Except.ok HandlerKind.archiveFile
  | Except.error e =>
    if e = PyExc.valueError then Except.ok (get_handler filepath ignored)
    else Except.error e

/-- The filesystem, modelled as the set of existing directories and the
existing regular files with their byte contents. -/
structure FS where
  dirs : List PyStr
  files : List (PyStr × List Nat)
deriving DecidableEq

/-- Model of os.path.exists restricted to this filesystem model. -/
def path_exists (p : PyStr) (fs : FS) : Bool :=
  fs.dirs.contains p || fs.files.any (fun f => f.1 == p)

/-- Model of os.path.isfile. -/
def is_file (p : PyStr) (fs : FS) : Bool :=
  fs.files.any (fun f => f.1 == p)

/-- The chain of proper ancestors of a path produced by iterating
os.path.dirname until it reaches a fixpoint or the empty string; these
are the intermediate directories os.makedirs creates. -/
def dirChainFuel : Nat → PyStr → List PyStr
  | 0, _ => []
  | n + 1, p =>
    let d := pyDirname p
    if d = p ∨ d = [] then [] else d :: dirChainFuel n d

/-- Model of os.makedirs with exist_ok left at its default: raises
FileExistsError when the leaf directory already exists, otherwise
creates the leaf and every missing ancestor. -/
def makedirs (d : PyStr) (fs : FS) : Except PyExc FS :=
  if fs.dirs.contains d then Except.error PyExc.fileExistsError
  else Except.ok { fs with
    dirs := d :: (dirChainFuel d.length d).filter (fun p => !fs.dirs.contains p)
            ++ fs.dirs }

/-- Model of open(p, wb) followed by writing the given bytes: the file
is created or truncated to exactly those bytes. -/
def write_file (p : PyStr) (b : List Nat) (fs : FS) : FS :=
  { fs with files := (p, b) :: fs.files.filter (fun f => !(f.1 == p)) }

/-- Model of shutil.rmtree: raises when the target (trailing separators
ignored, as the os calls accept them) is not an existing directory,
otherwise removes the directory and everything below it. -/
def rmtree (p : PyStr) (fs : FS) : Except PyExc FS :=
  let base := pyRstripSlash p
  if fs.dirs.contains base then
    Except.ok
      { dirs := fs.dirs.filter (fun d => !(d == base || (base ++ [sep]).isPrefixOf d)),
        files := fs.files.filter (fun f => !((base ++ [sep]).isPrefixOf f.1)) }
  else Except.error PyExc.notADirectoryError

/-- Model of AbstractFile.persist.  The inmemory flag is the abstract
property each concrete handler variant declares (the variants are not
under src/; per the spec each declares whether it can operate purely in
memory).  temp_dir is the fresh directory name mkdtemp returns; mkdtemp
creates that directory.  The source tests the byte source against None,
joins the temporary directory with the logical filepath (the filepath
property still yields the logical path because the ondisk field was
just reset), creates the directory part of the target with os.makedirs,
writes the full byte source content, and records the target as the
ondisk path. -/
def persist (inmemory : Bool) (temp_dir : PyStr) (filepath : PyStr)
    (fileobj : Option (List Nat)) (fs : FS) :
    Except PyExc (Option PyStr × FS) :=
  match fileobj with
  | none => Except.ok (none, fs)
  | some b =>
    if inmemory then Except.ok (none, fs)
    else
      let fs1 : FS := { fs with dirs := temp_dir :: fs.dirs }
      let temp_file := pyJoin temp_dir filepath
      match makedirs (pyDirname temp_file) fs1 with
      | Except.error e => Except.error e
      | Except.ok fs2 => Except.ok (some temp_file, write_file temp_file b fs2)

/-- The required digest algorithms (required_checksums in the source). -/
def required_checksums : List PyStr :=
  [str "md5", str "sha1", str "sha256", str "sha512"]

/-- The argument the source hands to the external hexdigest function:
either the effective on-disk path or the in-memory byte source. -/
inductive FileInput where
  | fromPath (p : PyStr)
  | fromBytes (b : List Nat)
deriving DecidableEq

/-- Model of AbstractFile.prepare_checksums.  The source tests the
truthiness of the byte source (None or an empty byte string both fail
the test), asserting in that case that the effective filepath exists and
is a regular file before digesting from the path; otherwise it digests
from the byte source.  The external Checksum Provider
(pyrus.checksum.hexdigest) is a parameter; per the spec it returns a hex
digest string per required algorithm. -/
def prepare_checksums (hexdigest : FileInput → PyStr → PyStr)
    (filepath : PyStr) (fileobj : Option (List Nat)) (fs : FS) :
    Except PyExc (List (PyStr × PyStr)) :=
  let from_path : Except PyExc (List (PyStr × PyStr)) :=
    if path_exists filepath fs && is_file filepath fs then
      Except.ok (required_checksums.map
        (fun a => (a, hexdigest (FileInput.fromPath filepath) a)))
    else Except.error PyExc.assertionError
  match fileobj with
  | none => from_path
  | some b =>
    if b = [] then from_path
    else
      Except.ok (required_checksums.map
        (fun a => (a, hexdigest (FileInput.fromBytes b) a)))

/-- The AbstractFile entity after construction: the stored logical
filepath (the private filepath field behind the property), the ondisk
path when persist materialized the byte source, and the reported
metadata and digests. -/
structure AbstractFile where
  filepath : PyStr
  ondisk : Option PyStr
  fileobj : Option (List Nat)
  path : PyStr
  name : PyStr
  type : PyStr
  parent : Option PyStr
  checksums : List (PyStr × PyStr)
deriving DecidableEq

/-- The filepath property of AbstractFile: the ondisk path when one was
recorded (tested against None, not for truthiness), else the stored
logical path. -/
def effective_filepath (f : AbstractFile) : PyStr :=
  match f.ondisk with
  | none => f.filepath
  | some od => od

/-- The reported path computed in the constructor of AbstractFile:
dirname(filepath.replace(parent_path, ).lstrip(sep)). -/
def relative_path (filepath parent_path : PyStr) : PyStr :=
  pyDirname (pyLstripSlash (pyReplace filepath parent_path []))

/-- The value of the filepath property read between persist and
prepare_checksums: the ondisk path when persist recorded one, else the
stored logical path. -/
def eff_of (ondisk : Option PyStr) (filepath : PyStr) : PyStr :=
  match ondisk with
  | none => filepath
  | some od => od

/-- Model of the constructor of AbstractFile: store the logical
filepath and byte source, derive path, name and type by pure string
manipulation, record the parent digest, run persist, then run
prepare_checksums against the effective filepath. -/
def abstract_file_init (hexdigest : FileInput → PyStr → PyStr)
    (inmemory : Bool) (temp_dir : PyStr) (filepath : PyStr)
    (fileobj : Option (List Nat)) (parent_path : PyStr)
    (parent_sha512 : Option PyStr) (fs : FS) :
    Except PyExc (AbstractFile × FS) :=
  match persist inmemory temp_dir filepath fileobj fs with
  | Except.error e => Except.error e
  | Except.ok (ondisk, fs1) =>
    match prepare_checksums hexdigest (eff_of ondisk filepath) fileobj fs1 with
    | Except.error e => Except.error e
    | Except.ok cks =>
      Except.ok
        ({ filepath := filepath, ondisk := ondisk, fileobj := fileobj,
           path := relative_path filepath parent_path,
           name := pyBasename filepath,
           type := pyLower (pySplitextExt filepath),
           parent := parent_sha512, checksums := cks }, fs1)

/-- Model of the finalizer of AbstractFile: when an ondisk path was
recorded and is truthy, remove the tree rooted at
ondisk.replace(filepath, ); every exception raised while doing so is
swallowed, leaving the filesystem unchanged. -/
def del (f : AbstractFile) (fs : FS) : FS :=
  match f.ondisk with
  | none => fs
  | some od =>
    if od = [] then fs
    else
      match rmtree (pyReplace od f.filepath []) fs with
      | Except.ok fs' => fs'
      | Except.error _ => fs

/-- Modelled from the words of claim C7: the directory part of the
filepath with the parent path removed when it occurs as a leading
prefix, and leading separators removed.  This is the comparison point
for the refinement claim about relative_path; it is not code of the
repository. -/
def strip_parent (s p : PyStr) : PyStr :=
  if p.isPrefixOf s then s.drop p.length else s

/-- The relative path as claim C7 words it (prefix stripping instead of
replacement of every occurrence). -/
def spec_relative_path (filepath parent_path : PyStr) : PyStr :=
  pyDirname (pyLstripSlash (strip_parent filepath parent_path))

/-- A lowercase hexadecimal string, the shape of a digest returned by
the external Checksum Provider. -/
def isHexStr (s : PyStr) : Bool :=
  s.all (fun c => c.isDigit || ('a' ≤ c && c ≤ 'f'))

/-- A concrete Checksum Provider used to instantiate theorems that are
parametric in the provider: it returns the digest string aa for every
input and algorithm, which is a non-empty lowercase hex string. -/
def hdW : FileInput → PyStr → PyStr := fun _ _ => [ 'a', 'a' ]

/-- The entity built by abstract_file_init from path a/b.mf, byte
source 0x01, empty parent path and provider hdW, used to instantiate
parametric theorems on a concrete successful construction. -/
def entW5 : AbstractFile :=
  { filepath := str "a/b.mf", ondisk := none, fileobj := some [1],
    path := str "a", name := str "b.mf", type := str ".mf",
    parent := none,
    checksums := [(str "md5", [ 'a', 'a' ]), (str "sha1", [ 'a', 'a' ]),
                  (str "sha256", [ 'a', 'a' ]), (str "sha512", [ 'a', 'a' ])] }

/-- The entity built by abstract_file_init from path a/a/f.txt with
parent path a: the replacement of every occurrence of the parent path
leaves an empty reported path, where prefix stripping would leave a. -/
def entC7 : AbstractFile :=
  { filepath := str "a/a/f.txt", ondisk := none, fileobj := some [1],
    path := [], name := str "f.txt", type := str ".txt",
    parent := none,
    checksums := [(str "md5", [ 'a', 'a' ]), (str "sha1", [ 'a', 'a' ]),
                  (str "sha256", [ 'a', 'a' ]), (str "sha512", [ 'a', 'a' ])] }

/-- The entity built by abstract_file_init from path parent/sub/f.txt
with parent path parent, a case where the reported path is the expected
sub directory. -/
def entW7 : AbstractFile :=
  { filepath := str "parent/sub/f.txt", ondisk := none, fileobj := some [1],
    path := str "sub", name := str "f.txt", type := str ".txt",
    parent := none,
    checksums := [(str "md5", [ 'a', 'a' ]), (str "sha1", [ 'a', 'a' ]),
                  (str "sha256", [ 'a', 'a' ]), (str "sha512", [ 'a', 'a' ])] }

/-- A transient directory name of the shape mkdtemp produces. -/
def tdW : PyStr := str "/tmp/jsnoop.file.persist.q1w2e3r4"

/-- An entity that materialized its byte source: the ondisk field holds
the transient path tdW/sub/f.bin for the logical path sub/f.bin. -/
def fW8 : AbstractFile :=
  { filepath := str "sub/f.bin",
    ondisk := some (str "/tmp/jsnoop.file.persist.q1w2e3r4/sub/f.bin"),
    fileobj := some [1], path := [], name := str "f.bin",
    type := str ".bin", parent := none, checksums := [] }

/-- A filesystem holding the transient storage of fW8 next to the
storage of another artifact. -/
def fsW8 : FS :=
  { dirs := [str "/tmp", str "/tmp/jsnoop.file.persist.q1w2e3r4",
             str "/tmp/jsnoop.file.persist.q1w2e3r4/sub", str "/tmp/other"],
    files := [(str "/tmp/jsnoop.file.persist.q1w2e3r4/sub/f.bin", [1]),
              (str "/tmp/other/x.bin", [2])] }

/-- Scanning t ++ f with a nonempty needle f that occurs nowhere before
the final tail position replaces exactly that tail occurrence, leaving
t, provided the fuel covers the subject. -/
theorem pyReplaceFuel_strip_tail (f : PyStr) (hf : f ≠ []) :
    ∀ (t : PyStr) (n : Nat),
      (∀ i, i < t.length → ¬ f.isPrefixOf ((t ++ f).drop i)) →
      (t ++ f).length ≤ n →
      pyReplaceFuel f [] n (t ++ f) = t := by
  intro t
  induction t with
  | nil =>
    intro n _ hn
    obtain ⟨c, f', rfl⟩ := List.exists_cons_of_ne_nil hf
    simp only [List.nil_append, List.length_cons] at hn ⊢
    cases n with
    | zero => omega
    | succ m =>
      rw [pyReplaceFuel, if_pos (by simp [ List.isPrefixOf_iff_prefix])]
      rw [List.nil_append]
      rw [show List.drop (c :: f').length (c :: f') = [] from List.drop_length _]
      rw [pyReplaceFuel]
  | cons c t' ih =>
    intro n hno hn
    have h0 : ¬ f.isPrefixOf (c :: (t' ++ f)) := by
      have h := hno 0 (by simp)
      simpa using h
    simp only [List.cons_append, List.length_cons] at hn ⊢
    cases n with
    | zero => omega
    | succ m =>
      rw [pyReplaceFuel, if_neg h0]
      refine congrArg (List.cons c) (ih m ?_ ?_)
      · intro i hi
        have h := hno (i + 1) (by simpa using Nat.succ_lt_succ hi)
        simpa [List.drop_succ_cons] using h
      · simpa using Nat.le_of_succ_le_succ (by simpa using hn)

/-- str.replace applied to t ++ f with needle f and empty replacement
yields t when the only occurrence of f is the final tail. -/
theorem pyReplace_strip_tail (t f : PyStr) (hf : f ≠ [])
    (hno : ∀ i, i < t.length → ¬ f.isPrefixOf ((t ++ f).drop i)) :
    pyReplace (t ++ f) f [] = t := by
  unfold pyReplace
  rw [if_neg hf]
  exact pyReplaceFuel_strip_tail f hf t (t ++ f).length hno (le_refl _)

/-- Stripping trailing separators from t ++ sep yields t when t does
not itself end in a separator. -/
theorem pyRstripSlash_append_sep (t : PyStr) (h : t.getLast? ≠ some sep) :
    pyRstripSlash (t ++ [sep]) = t := by
  unfold pyRstripSlash
  have h1 : (t ++ [sep]).reverse = sep :: t.reverse := by simp
  rw [h1]
  have h2 : pyLstripSlash (sep :: t.reverse) = pyLstripSlash t.reverse := by
    rw [pyLstripSlash, if_pos rfl]
  rw [h2]
  cases htr : t.reverse with
  | nil =>
    rw [pyLstripSlash]
    simpa using congrArg List.reverse htr
  | cons x r =>
    have hx : x ≠ sep := by
      have hh : t.reverse.head? = t.getLast? := List.head?_reverse t
      rw [htr] at hh
      intro hxe
      exact h (by rw [← hh, hxe]; rfl)
    rw [pyLstripSlash, if_neg hx]
    rw [← htr, List.reverse_reverse]

/-- A successful run of prepare_checksums always yields the map of the
required algorithm list over a single digest input. -/
theorem prepare_checksums_shape (hd : FileInput → PyStr → PyStr)
    (fp : PyStr) (fo : Option (List Nat)) (fs : FS)
    (cks : List (PyStr × PyStr))
    (h : prepare_checksums hd fp fo fs = Except.ok cks) :
    ∃ inp, cks = required_checksums.map (fun a => (a, hd inp a)) := by
  unfold prepare_checksums at h
  cases fo with
  | none =>
    simp only at h
    split at h
    · exact ⟨_, (Except.ok.inj h).symm⟩
    · exact absurd h (by simp)
  | some b =>
    simp only at h
    split at h
    · split at h
      · exact ⟨_, (Except.ok.inj h).symm⟩
      · exact absurd h (by simp)
    · exact ⟨_, (Except.ok.inj h).symm⟩

/-- C1: an input whose bytes construct as a valid container resolves to
the Archive handler whatever its extension; an input that is not a
valid container resolves by extension through the table, with the
simplefile handler as default for an unmapped extension. -/
theorem get_handler_obj_forced_archive_first (valid : Bool) (fp : PyStr)
    (ign : List PyStr) :
    (valid = true →
      get_handler_obj (archive_attempt_of valid) fp ign =
        Except.ok HandlerKind.archiveFile)
    ∧ (valid = false → ∀ k,
        is_ignored_extension (pyLower (pySplitextExt fp)) ign = false →
        MODULES (pyLower (pySplitextExt fp)) = some k →
        get_handler_obj (archive_attempt_of valid) fp ign = Except.ok k)
    ∧ (valid = false →
        is_ignored_extension (pyLower (pySplitextExt fp)) ign = false →
        MODULES (pyLower (pySplitextExt fp)) = none →
        get_handler_obj (archive_attempt_of valid) fp ign =
          Except.ok HandlerKind.simpleFile) := by
  refine ⟨?_, ?_, ?_⟩
  · intro h; subst h; rfl
  · intro h k hign hmod; subst h
    simp [get_handler_obj, archive_attempt_of, get_handler, hign, hmod]
  · intro h hign hmod; subst h
    simp [get_handler_obj, archive_attempt_of, get_handler, hign, hmod,
      DEFAULT_HANDLER]

/-- C1 witness: a non-container input with extension mf resolves to the
manifest handler, and a valid container resolves to the archive
handler. -/
theorem get_handler_obj_forced_archive_first_witness :
    get_handler_obj (archive_attempt_of false) (str "a.mf") [] =
        Except.ok HandlerKind.manifestFile
    ∧ get_handler_obj (archive_attempt_of true) (str "a.mf") [] =
        Except.ok HandlerKind.archiveFile := by
  refine ⟨?_, ?_⟩
  · exact (get_handler_obj_forced_archive_first false (str "a.mf") []).2.1
      rfl HandlerKind.manifestFile (by decide) (by decide)
  · exact (get_handler_obj_forced_archive_first true (str "a.mf") []).1 rfl

/-- C2: the fallback to extension classification is taken exactly when
the forced archive attempt fails with ValueError; a successful attempt
yields the archive handler, and any other exception of the attempt
propagates unchanged. -/
theorem get_handler_obj_fallback_iff_valueerror (att : Except PyExc Unit)
    (fp : PyStr) (ign : List PyStr) :
    (att = Except.ok () →
      get_handler_obj att fp ign = Except.ok HandlerKind.archiveFile)
    ∧ (∀ e, att = Except.error e → e = PyExc.valueError →
        get_handler_obj att fp ign = Except.ok (get_handler fp ign))
    ∧ (∀ e, att = Except.error e → e ≠ PyExc.valueError →
        get_handler_obj att fp ign = Except.error e) := by
  refine ⟨?_, ?_, ?_⟩
  · intro h; subst h; rfl
  · intro e h he; subst h; subst he; rfl
  · intro e h he; subst h; simp [get_handler_obj, he]

/-- C2 witness: an OSError raised by the forced archive attempt
propagates, while ValueError triggers the extension fallback. -/
theorem get_handler_obj_fallback_iff_valueerror_witness :
    get_handler_obj (Except.error PyExc.osError) (str "a.mf") [] =
        Except.error PyExc.osError
    ∧ get_handler_obj (Except.error PyExc.valueError) (str "a.mf") [] =
        Except.ok (get_handler (str "a.mf") []) := by
  refine ⟨?_, ?_⟩
  · exact (get_handler_obj_fallback_iff_valueerror
      (Except.error PyExc.osError) (str "a.mf") []).2.2 PyExc.osError rfl
      (by decide)
  · exact (get_handler_obj_fallback_iff_valueerror
      (Except.error PyExc.valueError) (str "a.mf") []).2.1 PyExc.valueError
      rfl rfl

/-- C9: a valid container resolves to the archive handler even when its
extension is in the ignore set, because the forced archive attempt does
not consult extensions; the ignore set only affects the fallback, where
an ignored extension yields the simplefile handler. -/
theorem get_handler_obj_ignore_set_only_affects_fallback (fp : PyStr)
    (ign : List PyStr) :
    get_handler_obj (archive_attempt_of true) fp ign =
        Except.ok HandlerKind.archiveFile
    ∧ (is_ignored_extension (pyLower (pySplitextExt fp)) ign = true →
        get_handler_obj (archive_attempt_of false) fp ign =
          Except.ok HandlerKind.simpleFile) := by
  refine ⟨rfl, ?_⟩
  intro hign
  simp [get_handler_obj, archive_attempt_of, get_handler, hign,
    DEFAULT_HANDLER]

/-- C9 witness: with the zip extension ignored, a valid container named
a.zip still resolves to the archive handler, and an invalid one falls
back to the simplefile handler. -/
theorem get_handler_obj_ignore_set_only_affects_fallback_witness :
    get_handler_obj (archive_attempt_of true) (str "a.zip") [str ".zip"] =
        Except.ok HandlerKind.archiveFile
    ∧ get_handler_obj (archive_attempt_of false) (str "a.zip") [str ".zip"] =
        Except.ok HandlerKind.simpleFile := by
  refine ⟨?_, ?_⟩
  · exact (get_handler_obj_ignore_set_only_affects_fallback (str "a.zip")
      [str ".zip"]).1
  · exact (get_handler_obj_ignore_set_only_affects_fallback (str "a.zip")
      [str ".zip"]).2 (by decide)

/-- C3: the claim says a registered extension becomes visible through
is_ignored_extension and redirects get_handler to the default handler;
the source instead raises UnboundLocalError on every call to
ignore_extensions (augmented assignment to the module-level ignore list
without a global declaration), so the ignore list stays empty, the
extension is not reported as ignored, and get_handler still follows the
table. -/
theorem ignore_extensions_mutation_not_visible :
    ignore_extensions (PyStrOrList.single (str ".zip")) [] =
        Except.error PyExc.unboundLocalError
    ∧ is_ignored_extension (str ".zip") [] = false
    ∧ get_handler (str "a.zip") [] = HandlerKind.archiveFile := by
  decide

/-- C4: the claim says registering an already-ignored extension is an
error-free no-op; the source raises UnboundLocalError on every call to
ignore_extensions, including one whose extension is already in the
ignore list, while unignore_extensions on an absent extension is indeed
a no-op. -/
theorem ignore_idempotence_raises :
    ignore_extensions (PyStrOrList.single (str ".zip")) [str ".zip"] =
        Except.error PyExc.unboundLocalError
    ∧ unignore_extensions (PyStrOrList.single (str ".xyz")) [str ".zip"] =
        [str ".zip"] := by
  decide

/-- C6: the claim says persist always writes a supplied byte source
into a fresh transient directory; for a filepath that is a bare
basename the directory part of the join target is the transient
directory itself, which mkdtemp just created, so os.makedirs raises
FileExistsError and persist fails instead of materializing the
content. -/
theorem persist_bare_basename_raises :
    persist false (str "/tmp/jsnoop.file.persist.abc123") (str "a.txt")
        (some [1, 2, 3]) { dirs := [str "/tmp"], files := [] } =
      Except.error PyExc.fileExistsError := by
  decide

/-- C5: every successfully constructed entity carries a checksums
mapping whose keys are exactly the four required algorithms, each bound
to a non-empty hex digest string, the latter under the spec contract of
the external Checksum Provider. -/
theorem abstract_file_checksums_complete (hd : FileInput → PyStr → PyStr)
    (hhex : ∀ i a, hd i a ≠ [] ∧ isHexStr (hd i a) = true)
    (inmemory : Bool) (td fp : PyStr) (fo : Option (List Nat)) (pp : PyStr)
    (ps : Option PyStr) (fs : FS) (ent : AbstractFile) (fs' : FS)
    (h : abstract_file_init hd inmemory td fp fo pp ps fs =
          Except.ok (ent, fs')) :
    ent.checksums.map Prod.fst = required_checksums
    ∧ ∀ p ∈ ent.checksums, p.2 ≠ [] ∧ isHexStr p.2 = true := by
  unfold abstract_file_init at h
  split at h
  · exact absurd h (by simp)
  · split at h
    · exact absurd h (by simp)
    · rename_i cks heqc
      obtain ⟨he, _⟩ := Prod.mk.inj (Except.ok.inj h)
      obtain ⟨inp, rfl⟩ := prepare_checksums_shape hd _ fo _ cks heqc
      subst he
      constructor
      · rw [List.map_map,
          show (Prod.fst ∘ fun a : PyStr => (a, hd inp a)) = id from rfl,
          List.map_id]
      · intro p hp
        simp only [List.mem_map] at hp
        obtain ⟨a, _, rfl⟩ := hp
        exact hhex inp a

/-- C5 witness: the construction from path a/b.mf with byte source
0x01 under the concrete provider hdW succeeds with exactly the four
required digests. -/
theorem abstract_file_checksums_complete_witness :
    abstract_file_init hdW true (str "/t") (str "a/b.mf") (some [1]) []
        none { dirs := [], files := [] } =
      Except.ok (entW5, { dirs := [], files := [] })
    ∧ entW5.checksums.map Prod.fst = required_checksums := by
  refine ⟨by decide, ?_⟩
  exact (abstract_file_checksums_complete hdW
    (fun _ _ => ⟨List.cons_ne_nil _ _, rfl⟩) true (str "/t") (str "a/b.mf")
    (some [1]) [] none { dirs := [], files := [] } entW5
    { dirs := [], files := [] } (by decide)).1

/-- C7 counterexample: the constructor computes the reported path by
removing every occurrence of the parent path from the filepath, not
only a leading prefix.  For filepath a/a/f.txt with parent path a the
constructed entity reports the empty path, while the claim (prefix
stripping) demands the path a. -/
theorem relative_path_not_prefix_strip :
    abstract_file_init hdW true (str "/t") (str "a/a/f.txt") (some [1])
        (str "a") none { dirs := [], files := [] } =
      Except.ok (entC7, { dirs := [], files := [] })
    ∧ entC7.path ≠ spec_relative_path (str "a/a/f.txt") (str "a") := by
  decide

/-- C7 amended: the constructed entity reports as its path the
directory part of the filepath with every occurrence of the parent path
substring removed and leading separators stripped, and as its name the
basename of the filepath; both are pure functions of the two path
strings, independent of the filesystem, the byte source and the
provider. -/
theorem abstract_file_reported_path (hd : FileInput → PyStr → PyStr)
    (inmemory : Bool) (td fp : PyStr) (fo : Option (List Nat)) (pp : PyStr)
    (ps : Option PyStr) (fs : FS) (ent : AbstractFile) (fs' : FS)
    (h : abstract_file_init hd inmemory td fp fo pp ps fs =
          Except.ok (ent, fs')) :
    ent.path = pyDirname (pyLstripSlash (pyReplace fp pp []))
    ∧ ent.name = pyBasename fp := by
  unfold abstract_file_init at h
  split at h
  · exact absurd h (by simp)
  · split at h
    · exact absurd h (by simp)
    · obtain ⟨he, _⟩ := Prod.mk.inj (Except.ok.inj h)
      subst he
      exact ⟨rfl, rfl⟩

/-- C7 amended witness: the construction from parent/sub/f.txt with
parent path parent reports path sub and name f.txt. -/
theorem abstract_file_reported_path_witness :
    entW7.path = pyDirname (pyLstripSlash
        (pyReplace (str "parent/sub/f.txt") (str "parent") []))
    ∧ entW7.name = pyBasename (str "parent/sub/f.txt") :=
  abstract_file_reported_path hdW true (str "/t") (str "parent/sub/f.txt")
    (some [1]) (str "parent") none { dirs := [], files := [] } entW7
    { dirs := [], files := [] } (by decide)

/-- C8: the finalizer leaves the filesystem unchanged when no transient
storage was materialized; every failure raised during removal is
swallowed, leaving the filesystem unchanged; and when the entity did
materialize its byte source under a transient directory whose name does
not collide with the logical filepath (which the unique random mkdtemp
name ensures), the removal deletes that directory with everything below
it and nothing else. -/
theorem del_transient_cleanup (f : AbstractFile) (fs : FS) (td : PyStr) :
    (f.ondisk = none → del f fs = fs)
    ∧ (∀ od e, f.ondisk = some od → od ≠ [] →
        rmtree (pyReplace od f.filepath []) fs = Except.error e →
        del f fs = fs)
    ∧ (f.ondisk = some ((td ++ [sep]) ++ f.filepath) →
        f.filepath ≠ [] →
        td.getLast? ≠ some sep →
        (∀ i, i < (td ++ [sep]).length →
          ¬ f.filepath.isPrefixOf (((td ++ [sep]) ++ f.filepath).drop i)) →
        fs.dirs.contains td = true →
        del f fs =
          { dirs := fs.dirs.filter
              (fun d => !(d == td || (td ++ [sep]).isPrefixOf d)),
            files := fs.files.filter
              (fun x => !((td ++ [sep]).isPrefixOf x.1)) }) := by
  refine ⟨?_, ?_, ?_⟩
  · intro h; simp [del, h]
  · intro od e hod hne hrm; simp [del, hod, hne, hrm]
  · intro hod hfp hlast hno hcont
    have hrepl : pyReplace ((td ++ [sep]) ++ f.filepath) f.filepath [] =
        td ++ [sep] :=
      pyReplace_strip_tail (td ++ [sep]) f.filepath hfp hno
    have hodne : (td ++ [sep]) ++ f.filepath ≠ [] := by simp
    have hbase : pyRstripSlash (td ++ [sep]) = td :=
      pyRstripSlash_append_sep td hlast
    have hmem : td ∈ fs.dirs := by simpa using hcont
    simp only [del, hod]
    rw [if_neg hodne, hrepl]
    unfold rmtree
    rw [hbase]
    simp [hmem]

/-- C8 witness: deleting the materialized entity fW8 removes its
transient directory and everything below it while the storage of the
other artifact and the rest of the filesystem survive. -/
theorem del_transient_cleanup_witness :
    del fW8 fsW8 =
      { dirs := [str "/tmp", str "/tmp/other"],
        files := [(str "/tmp/other/x.bin", [2])] } := by
  have h := (del_transient_cleanup fW8 fsW8 tdW).2.2 (by decide) (by decide)
    (by decide) (by decide) (by decide)
  rw [h]
  decide

/-- C10: persistence tests the byte source against None while checksum
preparation tests its truthiness, so a supplied but empty byte source
routes digesting through the effective filepath under an assertion that
it exists and is a regular file.  For an in-memory handler variant this
makes construction from an empty byte source and a non-existent path
fail with AssertionError, while the same construction with a non-empty
byte source succeeds and digests the bytes; and whenever the byte
source is falsy and the path checks pass, the digest input is the path,
not the byte source. -/
theorem prepare_checksums_truthiness_vs_none (hd : FileInput → PyStr → PyStr)
    (td fp pp : PyStr) (ps : Option PyStr) (fs : FS)
    (hne : path_exists fp fs = false) :
    abstract_file_init hd true td fp (some []) pp ps fs =
        Except.error PyExc.assertionError
    ∧ (∀ b : List Nat, b ≠ [] →
        abstract_file_init hd true td fp (some b) pp ps fs =
          Except.ok
            ({ filepath := fp, ondisk := none, fileobj := some b,
               path := relative_path fp pp, name := pyBasename fp,
               type := pyLower (pySplitextExt fp), parent := ps,
               checksums := required_checksums.map
                 (fun a => (a, hd (FileInput.fromBytes b) a)) }, fs))
    ∧ (∀ fs2 : FS, path_exists fp fs2 = true → is_file fp fs2 = true →
        prepare_checksums hd fp (some []) fs2 =
          Except.ok (required_checksums.map
            (fun a => (a, hd (FileInput.fromPath fp) a)))) := by
  refine ⟨?_, ?_, ?_⟩
  · simp [abstract_file_init, persist, prepare_checksums, eff_of, hne]
  · intro b hb
    simp [abstract_file_init, persist, prepare_checksums, eff_of, hb]
  · intro fs2 hex hisf
    simp [prepare_checksums, hex, hisf]

/-- C10 witness: constructing an in-memory entity from the non-existent
path no/such.mf with an empty byte source fails with AssertionError. -/
theorem prepare_checksums_truthiness_vs_none_witness :
    abstract_file_init hdW true (str "/t") (str "no/such.mf") (some []) []
        none { dirs := [], files := [] } =
      Except.error PyExc.assertionError :=
  (prepare_checksums_truthiness_vs_none hdW (str "/t") (str "no/such.mf")
    [] none { dirs := [], files := [] } (by decide)).1

end JSnoop
